import Mathlib

/-!
Verification of the `text-editor` repository (a terminal text editor named
Voider) against its natural-language specification.

The repository sources under verification are `src/editor.rs`,
`src/terminal.rs` and `src/highlighting.rs`.  The `Document`/`Row` buffer
module is not part of the provided sources (only its callers are), so the
document operations the editor calls are modelled from the specification;
every such definition is marked `Modelled from the spec:` in its doc
comment.  Everything else is translated directly from the Rust sources.

Conventions of the embedding:
* Rust `usize` arithmetic becomes `Nat`; `saturating_sub` is `Nat`
  subtraction (which already saturates at zero).
* Rust `String` buffers that are manipulated by character are `List Char`;
  where byte-level behaviour matters (`String::truncate` takes a byte
  index and panics off a char boundary) an explicit UTF-8 byte model is
  used and the panic is an `Option.none` outcome.
* The interactive `prompt` loop consumes an explicit list of keystrokes;
  exhausting the list before Enter/Escape is the `unfinished` outcome
  (the real loop would block reading a key), and a Rust panic inside the
  loop is the `panicked` outcome.
* External effects that only feed data in (terminal size queries, results
  of `Document::save`, `Document::open`) are parameters of the functions
  that consume them.
-/

namespace Voider

/-- `SearchDirection` from `editor.rs`. -/
inductive SearchDirection where
  | forward
  | backward
deriving DecidableEq, Repr

/-- The `crossterm` `KeyCode` constructors actually consumed by `editor.rs`.
`other` stands for every remaining constructor (they all fall into the
catch-all arms of the Rust `match`es). -/
inductive KeyCode where
  | f (n : Nat)
  | char (c : Char)
  | enter
  | tab
  | delete
  | backspace
  | up
  | down
  | left
  | right
  | pageUp
  | pageDown
  | home
  | endKey
  | esc
  | other
deriving DecidableEq, Repr

/-- `Position` from `editor.rs`: a cursor/offset coordinate pair. -/
structure Position where
  x : Nat
  y : Nat
deriving DecidableEq, Repr

/-- Modelled from the spec: the `Document` buffer (its `document.rs`/`row.rs`
module is not among the provided sources).  A row is its ordered sequence of
Unicode characters; the document is the ordered list of rows plus the
optional file name and the dirty flag (§3 of the spec). -/
structure Document where
  rows : List (List Char)
  fileName : Option (List Char)
  dirty : Bool
deriving DecidableEq, Repr

/-- Modelled from the spec: `Document::default()` — the empty, untitled,
not-dirty document an unreadable path degrades to (§7, §8). -/
def Document.default : Document := ⟨[], none, false⟩

/-- Length of row `y`, or `0` when the row does not exist.  This is the
`width` computation of `Editor::move_cursor` (`editor.rs` lines 409-413). -/
def rowLen (doc : Document) (y : Nat) : Nat :=
  match doc.rows.get? y with
  | some r => r.length
  | none => 0

/-- Replace the element at index `i` of a list using `f` (identity when the
index is out of range).  Helper for the modelled document mutations. -/
def listModify {α : Type} (f : α → α) : Nat → List α → List α
  | _, [] => []
  | 0, a :: t => f a :: t
  | n + 1, a :: t => a :: listModify f n t

/-- Insert a character into a row at character offset `col`, clamping `col`
to the row length.  Modelled from the spec: `Line.insertAt` (§4.1). -/
def rowInsert (row : List Char) (col : Nat) (c : Char) : List Char :=
  row.take col ++ c :: row.drop col

/-- Remove the character at offset `col` of a row (no-op past the end).
Modelled from the spec: `Line.deleteAt` (§4.1). -/
def rowDelete (row : List Char) (col : Nat) : List Char :=
  row.take col ++ row.drop (col + 1)

/-- Modelled from the spec: `Document::insert` (§4.2).  A line break splits
the row at the position into two rows; any other character is inserted into
the row at the column (one-past-last-row positions append).  Marks dirty. -/
def docInsert (doc : Document) (p : Position) (c : Char) : Document :=
  if c = '\n' then
    if h : p.y < doc.rows.length then
      let row := doc.rows.get ⟨p.y, h⟩
      { doc with
        rows := doc.rows.take p.y ++ row.take p.x :: row.drop p.x :: doc.rows.drop (p.y + 1),
        dirty := true }
    else
      { doc with rows := doc.rows ++ [[]], dirty := true }
  else
    if p.y < doc.rows.length then
      { doc with rows := listModify (fun r => rowInsert r p.x c) p.y doc.rows, dirty := true }
    else
      { doc with rows := doc.rows ++ [[c]], dirty := true }

/-- Modelled from the spec: `Document::delete` (§4.2).  Inside a row the
character at the position is removed; at the end of a row the next row (when
it exists) is merged in; positions past the last row are ignored.  Marks
dirty whenever the addressed row exists. -/
def docDelete (doc : Document) (p : Position) : Document :=
  match doc.rows.get? p.y with
  | none => doc
  | some row =>
    if p.x < row.length then
      { doc with rows := listModify (fun r => rowDelete r p.x) p.y doc.rows, dirty := true }
    else
      match doc.rows.get? (p.y + 1) with
      | some next =>
        { doc with
          rows := (doc.rows.take p.y ++ [row ++ next]) ++ doc.rows.drop (p.y + 2),
          dirty := true }
      | none => { doc with dirty := true }

/-- Does `q` occur in `row` starting exactly at character offset `i`? -/
def matchesAt (row q : List Char) (i : Nat) : Bool :=
  decide ((row.drop i).take q.length = q)

/-- Leftmost occurrence of `q` in `row` at an offset `≥ fromCol`.
Modelled from the spec: the Forward intra-row search (§4.2). -/
def rowFindForward (row q : List Char) (fromCol : Nat) : Option Nat :=
  (List.range (row.length + 1)).find? (fun i => decide (fromCol ≤ i) && matchesAt row q i)

/-- Rightmost occurrence of `q` in `row` at an offset `≤ fromCol`.
Modelled from the spec: the Backward intra-row search prefers the last
match (§4.2). -/
def rowFindBackward (row q : List Char) (fromCol : Nat) : Option Nat :=
  ((List.range (fromCol + 1)).filter (fun i => matchesAt row q i)).getLast?

/-- Scan a list of `(row index, start column)` candidates in order and
return the first intra-row hit. -/
def findInRows (doc : Document) (q : List Char) (dir : SearchDirection) :
    List (Nat × Nat) → Option Position
  | [] => none
  | (y, c) :: t =>
    let hit : Option Nat :=
      match doc.rows.get? y with
      | some row =>
        match dir with
        | SearchDirection.forward => rowFindForward row q c
        | SearchDirection.backward => rowFindBackward row q c
      | none => none
    match hit with
    | some x => some ⟨x, y⟩
    | none => findInRows doc q dir t

/-- Modelled from the spec: `Document::find` (§4.2).  Case-sensitive
substring search.  Forward scans rows `at.y .. rowCount()` starting at
`at.x` in the first row, then wraps `0 .. at.y`; Backward scans descending
symmetrically.  At most one full wrap; an empty query returns none. -/
def docFind (doc : Document) (q : List Char) (p : Position) (dir : SearchDirection) :
    Option Position :=
  if q.isEmpty then none
  else
    let n := doc.rows.length
    let order : List (Nat × Nat) :=
      match dir with
      | SearchDirection.forward =>
        (p.y, p.x) :: (((List.range n).drop (p.y + 1)).map (fun y => (y, 0)) ++
          (List.range (p.y + 1)).map (fun y => (y, 0)))
      | SearchDirection.backward =>
        (p.y, p.x) :: (((List.range p.y).reverse).map (fun y => (y, rowLen doc y)) ++
          (((List.range n).drop p.y).reverse).map (fun y => (y, rowLen doc y)))
    findInRows doc q dir order

/-- The `Editor` state from `editor.rs` (the `terminal` field is reduced to
the cached terminal size, the only data `editor.rs` reads from it; the
`StatusMessage` is reduced to its text, its timestamp being wall-clock
data).  Text is represented as `List Char`. -/
structure Editor where
  shouldQuit : Bool
  cursor : Position
  offset : Position
  document : Document
  statusText : List Char
  quitTimes : Nat
  highlightedWord : Option (List Char)
  termWidth : Nat
  termHeight : Nat
deriving DecidableEq, Repr

/-- The characters of a string literal. -/
def strL (s : String) : List Char := s.data

/-- `QUIT_TIMES` from `editor.rs`. -/
def QUIT_TIMES : Nat := 3

/-- The motion part of `Editor::move_cursor` (`editor.rs` lines 415-467):
the `match` on the key that updates `x` and `y` before the final clamp. -/
def moveCursorRaw (doc : Document) (th : Nat) (p : Position) (k : KeyCode) : Position :=
  let height := doc.rows.length
  let width := rowLen doc p.y
  match k with
  | KeyCode.up => ⟨p.x, p.y - 1⟩
  | KeyCode.down => if p.y < height then ⟨p.x, p.y + 1⟩ else p
  | KeyCode.left =>
    if 0 < p.x then ⟨p.x - 1, p.y⟩
    else if 0 < p.y then ⟨rowLen doc (p.y - 1), p.y - 1⟩
    else p
  | KeyCode.right =>
    if p.x < width then ⟨p.x + 1, p.y⟩
    else if p.y < height then ⟨0, p.y + 1⟩
    else p
  | KeyCode.pageUp => ⟨p.x, if th < p.y then p.y - th else 0⟩
  | KeyCode.pageDown => ⟨p.x, if p.y + th < height then p.y + th else height⟩
  | KeyCode.home => ⟨0, p.y⟩
  | KeyCode.endKey => ⟨width, p.y⟩
  | KeyCode.tab =>
    if p.x < width then ⟨p.x + 4, p.y⟩
    else if p.y < height then ⟨0, p.y + 1⟩
    else p
  | _ => p

/-- The final clamp of `Editor::move_cursor` (`editor.rs` lines 469-477):
`x` is pulled back to the length of the (possibly new) row. -/
def clampX (doc : Document) (q : Position) : Position :=
  if rowLen doc q.y < q.x then ⟨rowLen doc q.y, q.y⟩ else q

/-- `Editor::move_cursor` (`editor.rs` lines 405-480). -/
def moveCursor (doc : Document) (th : Nat) (p : Position) (k : KeyCode) : Position :=
  clampX doc (moveCursorRaw doc th p k)

/-- The offset produced by `Editor::scroll` (`editor.rs` lines 386-403). -/
def scrollOffset (tw th : Nat) (cursor offset : Position) : Position :=
  let oy :=
    if cursor.y < offset.y then cursor.y
    else if offset.y + th ≤ cursor.y then cursor.y - th + 1
    else offset.y
  let ox :=
    if cursor.x < offset.x then cursor.x
    else if offset.x + tw ≤ cursor.x then cursor.x - tw + 1
    else offset.x
  ⟨ox, oy⟩

/-- `self.scroll()` as a state update. -/
def Editor.applyScroll (ed : Editor) : Editor :=
  { ed with offset := scrollOffset ed.termWidth ed.termHeight ed.cursor ed.offset }

/-- `self.move_cursor(k)` as a state update. -/
def Editor.moveKey (ed : Editor) (k : KeyCode) : Editor :=
  { ed with cursor := moveCursor ed.document ed.termHeight ed.cursor k }

/-- `self.document.insert(&self.cursor_position, c)` as a state update. -/
def Editor.insertChar (ed : Editor) (c : Char) : Editor :=
  { ed with document := docInsert ed.document ed.cursor c }

/-- UTF-8 byte length of a character list, as Rust's `String::len`. -/
def byteLen (l : List Char) : Nat := (l.map Char.utf8Size).sum

/-- Rust's `String::truncate(n)`: keeps the first `n` BYTES.  It is a no-op
when `n` is at least the byte length and PANICS when `n` is not on a
character boundary; the panic is modelled as `none`. -/
def truncateBytes : List Char → Nat → Option (List Char)
  | _, 0 => some []
  | [], _ + 1 => some []
  | c :: t, n + 1 =>
    if c.utf8Size ≤ n + 1 then
      (truncateBytes t (n + 1 - c.utf8Size)).map (fun l => c :: l)
    else none

/-- Rust's `char::is_control`: the Unicode `Cc` category. -/
def isControlRust (c : Char) : Bool :=
  c.val < 0x20 || (0x7F ≤ c.val && c.val ≤ 0x9F)

/-- The query-buffer update a single keystroke performs inside
`Editor::prompt` (`editor.rs` lines 363-376): Backspace truncates to byte
length minus one (`none` = panic off a char boundary), a non-control
character is pushed, Escape clears, everything else leaves the buffer. -/
def promptBufferStep (buf : List Char) (k : KeyCode) : Option (List Char) :=
  match k with
  | KeyCode.backspace => truncateBytes buf (byteLen buf - 1)
  | KeyCode.char c => some (if isControlRust c then buf else buf ++ [c])
  | KeyCode.esc => some []
  | _ => some buf

/-- The post-loop conversion of `Editor::prompt` (`editor.rs` lines
380-383): an empty accumulated buffer becomes `None`. -/
def promptQuery (raw : List Char) : Option (List Char) :=
  if raw.isEmpty then none else some raw

/-- Outcome of running the `Editor::prompt` loop on a finite keystroke
list: the loop finished via Enter/Escape (`done`, carrying the accumulated
buffer as it stood at the break), ran out of keystrokes (`unfinished` — the
real loop would block on `read_key`), or panicked (`panicked`). -/
inductive PromptOut (σ : Type) where
  | panicked
  | unfinished (s : σ) (ed : Editor) (buf : List Char)
  | done (s : σ) (ed : Editor) (raw : List Char)
deriving DecidableEq, Repr

/-- The loop of `Editor::prompt` (`editor.rs` lines 354-384) over an
explicit keystroke list.  `σ` is the state captured mutably by the
callback closure (the search direction for `Editor::search`, nothing for
`Editor::save`).  Per iteration the status line is set to
`prompt ++ buffer`, the key is matched (Enter breaks, Escape clears and
breaks, Backspace byte-truncates — a panic for a multi-byte final
character —, a non-control character is appended), and for non-breaking
keys the callback runs on the updated buffer.  On exit the status line is
cleared. -/
def promptRun {σ : Type} (cb : σ → Editor → KeyCode → List Char → σ × Editor)
    (pstr : List Char) : σ → Editor → List Char → List KeyCode → PromptOut σ
  | s, ed, buf, [] => PromptOut.unfinished s ed buf
  | s, ed, buf, k :: rest =>
    let ed1 : Editor := { ed with statusText := pstr ++ buf }
    match k with
    | KeyCode.enter => PromptOut.done s { ed1 with statusText := [] } buf
    | KeyCode.esc => PromptOut.done s { ed1 with statusText := [] } []
    | KeyCode.backspace =>
      match truncateBytes buf (byteLen buf - 1) with
      | none => PromptOut.panicked
      | some b =>
        let r := cb s ed1 KeyCode.backspace b
        promptRun cb pstr r.1 r.2 b rest
    | KeyCode.char c =>
      let b := if isControlRust c then buf else buf ++ [c]
      let r := cb s ed1 (KeyCode.char c) b
      promptRun cb pstr r.1 r.2 b rest
    | k2 =>
      let r := cb s ed1 k2 buf
      promptRun cb pstr r.1 r.2 buf rest

/-- The per-keystroke callback closure of `Editor::search` (`editor.rs`
lines 319-343).  Right/Down set the direction forward and advance the
cursor one position; Left/Up set it backward; every other key sets it
forward.  Then `find` runs from the working cursor: a match moves the
cursor there and scrolls, no match after an advance undoes the advance
with a Left move.  The query is recorded as the highlighted word. -/
def searchCb (_s : SearchDirection) (ed : Editor) (k : KeyCode) (q : List Char) :
    SearchDirection × Editor :=
  let step : SearchDirection × Editor × Bool :=
    match k with
    | KeyCode.right => (SearchDirection.forward, ed.moveKey KeyCode.right, true)
    | KeyCode.down => (SearchDirection.forward, ed.moveKey KeyCode.right, true)
    | KeyCode.left => (SearchDirection.backward, ed, false)
    | KeyCode.up => (SearchDirection.backward, ed, false)
    | _ => (SearchDirection.forward, ed, false)
  let dir := step.1
  let ed1 := step.2.1
  let moved := step.2.2
  let ed2 :=
    match docFind ed1.document q ed1.cursor dir with
    | some pos => Editor.applyScroll { ed1 with cursor := pos }
    | none => if moved then ed1.moveKey KeyCode.left else ed1
  (dir, { ed2 with highlightedWord := some q })

/-- `Editor::search` (`editor.rs` lines 315-352) over an explicit keystroke
list.  Returns `none` when the prompt loop panicked or ran out of keys.
When the prompt yields no query (Escape, or Enter on an empty buffer) the
cursor recorded at entry is restored and the view scrolled; either way the
highlighted word is cleared at exit. -/
def searchRun (ed : Editor) (keys : List KeyCode) : Option Editor :=
  let oldPos := ed.cursor
  match promptRun searchCb (strL "Search: ") SearchDirection.forward ed [] keys with
  | PromptOut.done _ ed2 raw =>
    let ed3 :=
      match promptQuery raw with
      | none => Editor.applyScroll { ed2 with cursor := oldPos }
      | some _ => ed2
    some { ed3 with highlightedWord := none }
  | _ => none

/-- The do-nothing callback `|_, _, _| {}` passed by `Editor::save`. -/
def saveCb (s : Unit) (ed : Editor) (_k : KeyCode) (_q : List Char) : Unit × Editor :=
  (s, ed)

/-- Modelled from the spec: the effect of `Document::save` (§4.2,
`document.rs` is not among the provided sources) combined with the status
reporting of `Editor::save` (`editor.rs` lines 525-529).  Success of the
underlying write is the external parameter `ok`; on success the dirty flag
is cleared. -/
def doSave (ed : Editor) (ok : Bool) : Editor :=
  if ok then
    { ed with document := { ed.document with dirty := false },
              statusText := strL "File saved successfully." }
  else { ed with statusText := strL "Error writing file!" }

/-- `Editor::save` (`editor.rs` lines 513-530) over an explicit keystroke
list for the "Save as" prompt.  The returned `Bool` records whether
`document.save()` was invoked (i.e. whether a write was attempted). -/
def saveRun (ed : Editor) (keys : List KeyCode) (sOk : Bool) : Option (Editor × Bool) :=
  if ed.document.fileName.isNone then
    match promptRun saveCb (strL "Save as: ") () ed [] keys with
    | PromptOut.done _ ed2 raw =>
      match promptQuery raw with
      | none => some ({ ed2 with statusText := strL "Save aborted: " }, false)
      | some name =>
        let ed3 := { ed2 with document := { ed2.document with fileName := some name } }
        some (doSave ed3 sOk, true)
    | _ => none
  else some (doSave ed sOk, true)

/-- The warning set by the F8 branch of `Editor::process_keypress`
(`editor.rs` lines 264-267), with the pre-decrement counter interpolated. -/
def warnMsg (n : Nat) : List Char :=
  strL ("WARNING! File has unsaved changes. Press F8 " ++ toString n ++ " more times to quit.")

/-- The tail of `Editor::process_keypress` (`editor.rs` lines 305-310):
`self.scroll()` followed by the quit-counter reset. -/
def finishKey (ed : Editor) : Editor :=
  let ed1 := Editor.applyScroll ed
  if ed1.quitTimes < QUIT_TIMES then { ed1 with quitTimes := QUIT_TIMES, statusText := [] }
  else ed1

/-- `Editor::process_keypress` (`editor.rs` lines 258-313).  `key` is the
key `read_key` returned; `rest` is the keystroke stream available to a
nested search/save prompt; `sOk` is the outcome of a `Document::save`
write, if one happens.  `none` means a nested prompt panicked or the
keystroke stream ran dry inside it.  The F8 arm returns early when the
warning fires (skipping scroll and the counter reset); every other path
falls through to `finishKey`. -/
def processKeypress (ed : Editor) (key : KeyCode) (rest : List KeyCode) (sOk : Bool) :
    Option Editor :=
  if key = KeyCode.f 8 then
    if 0 < ed.quitTimes ∧ ed.document.dirty = true then
      some { ed with statusText := warnMsg ed.quitTimes, quitTimes := ed.quitTimes - 1 }
    else some (finishKey { ed with shouldQuit := true })
  else if key = KeyCode.f 3 then (searchRun ed rest).map finishKey
  else if key = KeyCode.f 5 then ((saveRun ed rest sOk).map Prod.fst).map finishKey
  else
    (some (match key with
      | KeyCode.enter => (ed.insertChar '\n').moveKey KeyCode.right
      | KeyCode.tab => (ed.insertChar '\t').moveKey KeyCode.tab
      | KeyCode.char c => (ed.insertChar c).moveKey KeyCode.right
      | KeyCode.delete => { ed with document := docDelete ed.document ed.cursor }
      | KeyCode.backspace =>
        if 0 < ed.cursor.x ∨ 0 < ed.cursor.y then
          let e := ed.moveKey KeyCode.left
          { e with document := docDelete e.document e.cursor }
        else ed
      | KeyCode.up => ed.moveKey KeyCode.up
      | KeyCode.down => ed.moveKey KeyCode.down
      | KeyCode.left => ed.moveKey KeyCode.left
      | KeyCode.right => ed.moveKey KeyCode.right
      | KeyCode.pageUp => ed.moveKey KeyCode.pageUp
      | KeyCode.pageDown => ed.moveKey KeyCode.pageDown
      | KeyCode.home => ed.moveKey KeyCode.home
      | KeyCode.endKey => ed.moveKey KeyCode.endKey
      | _ => ed)).map finishKey

/-- One F8 keypress (the F8 arm of `process_keypress` never consults the
nested keystroke stream or the save outcome and never fails). -/
def pressF8 (ed : Editor) : Editor :=
  (processKeypress ed (KeyCode.f 8) [] true).getD ed

/-- A terminal size (`Size` from `terminal.rs`). -/
structure Size where
  width : Nat
  height : Nat
deriving DecidableEq, Repr

/-- Outcome of constructing the editor's terminal at startup: either the
process is running with some size, or it died. -/
inductive StartOutcome where
  | started (s : Size)
  | died
deriving DecidableEq, Repr

/-- `Terminal::default` (`terminal.rs` lines 22-42) as a function of the
result of `crossterm::terminal::size()` (`none` = the query failed).  On
success the height loses two rows for the status bars; on failure a fixed
16×20 size is used.  Raw mode is enabled in both branches and neither
branch terminates the process. -/
def terminalDefaultModel : Option (Nat × Nat) → StartOutcome
  | some (w, h) => StartOutcome.started ⟨w, h - 2⟩
  | none => StartOutcome.started ⟨16, 20⟩

/-- One event seen by `Terminal::read_key` (`terminal.rs` lines 55-68). -/
inductive TermEvent where
  | keyEvent (code : KeyCode) (isPress : Bool)
  | otherEvent
deriving DecidableEq, Repr

/-- Effect of one iteration of the `Terminal::read_key` loop on one
`crossterm::event::read()` result. -/
inductive ReadStep where
  | ret (code : KeyCode)
  | panicked
  | retry
deriving DecidableEq, Repr

/-- One iteration of `Terminal::read_key` (`terminal.rs` lines 55-68): a
key-press event is returned, a read error panics (`panic!("{err:?}")`,
with no raw-mode restore on that path), anything else loops. -/
def readKeyStep : Except Unit TermEvent → ReadStep
  | Except.error _ => ReadStep.panicked
  | Except.ok (TermEvent.keyEvent c true) => ReadStep.ret c
  | Except.ok (TermEvent.keyEvent _ false) => ReadStep.retry
  | Except.ok TermEvent.otherEvent => ReadStep.retry

/-- Outcome of one iteration of `Editor::run` (`editor.rs` lines 240-255):
`panicNoRestore` is the `die` path (a `panic!` that does not disable raw
mode), `exitRestored` is the clean quit (which does call
`disable_raw_mode`), `continueLoop` keeps looping. -/
inductive IterOutcome where
  | panicNoRestore
  | exitRestored
  | continueLoop
deriving DecidableEq, Repr

/-- One iteration of `Editor::run` (`editor.rs` lines 240-255) as a
function of the current `should_quit` flag and of whether the two fallible
effects of the iteration (drawing/flushing the screen, reading a key)
succeed. -/
def runIter (shouldQuit refreshOk keyReadOk : Bool) : IterOutcome :=
  if !refreshOk then IterOutcome.panicNoRestore
  else if shouldQuit then IterOutcome.exitRestored
  else if !keyReadOk then IterOutcome.panicNoRestore
  else IterOutcome.continueLoop

/-- The initial help message of `Editor::default` (`editor.rs` line 212). -/
def helpMsg : List Char := strL "HELP: F3 = find | F5 = save | F8 = quit"

/-- `Editor::default` (`editor.rs` lines 210-237) as a function of the
command-line arguments, of the outcome of `Document::open` on a path
(`none` = the open failed) and of the terminal size query.  A present but
unopenable path degrades to `Document.default` plus an error status
message; there is no panicking or aborting path. -/
def editorDefault (args : List String) (openFn : String → Option Document)
    (ts : Option (Nat × Nat)) : Editor :=
  let picked : Document × List Char :=
    match args.get? 1 with
    | some fileName =>
      match openFn fileName with
      | some d => (d, helpMsg)
      | none => (Document.default, strL ("ERR: Could not open file: " ++ fileName))
    | none => (Document.default, helpMsg)
  let sz : Size :=
    match terminalDefaultModel ts with
    | StartOutcome.started s => s
    | StartOutcome.died => ⟨0, 0⟩
  { shouldQuit := false
    cursor := ⟨0, 0⟩
    offset := ⟨0, 0⟩
    document := picked.1
    statusText := picked.2
    quitTimes := QUIT_TIMES
    highlightedWord := none
    termWidth := sz.width
    termHeight := sz.height }

/-- A small concrete editor over the one-line document `"ab"`, used to
instantiate theorems at concrete inputs. -/
def edA : Editor :=
  { shouldQuit := false
    cursor := ⟨0, 0⟩
    offset := ⟨0, 0⟩
    document := ⟨[strL "ab"], none, false⟩
    statusText := []
    quitTimes := 3
    highlightedWord := none
    termWidth := 16
    termHeight := 20 }

/-- `edA` with the cursor on the one-past-last row `(x = 0, y = 1)`. -/
def edPastEnd : Editor := { edA with cursor := ⟨0, 1⟩ }

/-- `edA` with a dirty document. -/
def edDirty : Editor := { edA with document := ⟨[strL "ab"], none, true⟩ }

/-!  Small projection lemmas: the state updates of the editor leave the
fields they do not mention untouched. -/

theorem applyScroll_cursor (ed : Editor) : ed.applyScroll.cursor = ed.cursor := rfl

theorem applyScroll_quitTimes (ed : Editor) : ed.applyScroll.quitTimes = ed.quitTimes := rfl

theorem moveKey_document (ed : Editor) (k : KeyCode) : (ed.moveKey k).document = ed.document := rfl

theorem moveKey_cursor (ed : Editor) (k : KeyCode) :
    (ed.moveKey k).cursor = moveCursor ed.document ed.termHeight ed.cursor k := rfl

theorem moveKey_quitTimes (ed : Editor) (k : KeyCode) : (ed.moveKey k).quitTimes = ed.quitTimes := rfl

theorem moveKey_termHeight (ed : Editor) (k : KeyCode) : (ed.moveKey k).termHeight = ed.termHeight := rfl

theorem finishKey_shouldQuit (ed : Editor) : (finishKey ed).shouldQuit = ed.shouldQuit := by
  unfold finishKey
  dsimp only
  split <;> rfl

theorem finishKey_quitTimes (ed : Editor) (h : ed.quitTimes ≤ 3) :
    (finishKey ed).quitTimes = 3 := by
  unfold finishKey QUIT_TIMES
  dsimp only
  split
  · rfl
  · rename_i h2
    have h2b : ¬ ed.quitTimes < 3 := h2
    show ed.quitTimes = 3
    omega

theorem doSave_quitTimes (ed : Editor) (ok : Bool) : (doSave ed ok).quitTimes = ed.quitTimes := by
  unfold doSave
  split <;> rfl

/-- The direction and the editor produced by one search-callback invocation
change nothing but the cursor, the offset and the highlighted word; in
particular the quit counter survives. -/
theorem searchCb_quitTimes (s : SearchDirection) (ed : Editor) (k : KeyCode) (q : List Char) :
    ((searchCb s ed k q).2).quitTimes = ed.quitTimes := by
  unfold searchCb
  cases k <;> dsimp only <;> split <;> rfl

/-!  Claim C4 — startup and fatal error paths (`terminal.rs`, `editor.rs`). -/

/-- Claim C4 counterexample: the claim says a failed terminal size query at
startup terminates the process, but `Terminal::default` merely falls back
to a fixed 16×20 size and the editor keeps running. -/
theorem size_failure_not_fatal_cex :
    terminalDefaultModel none = StartOutcome.started ⟨16, 20⟩ ∧
    terminalDefaultModel none ≠ StartOutcome.died := by
  decide

/-- Claim C4 (amended): a failed terminal size query never terminates the
process (it yields the 16×20 fallback; success yields width × (height−2)).
The fatal paths are a failed key read (`read_key` panics) and a failed
screen refresh (`die` panics); both panic without restoring normal
terminal mode, which is restored only on a clean quit. -/
theorem fatal_paths_amended :
    (∀ r, terminalDefaultModel r ≠ StartOutcome.died) ∧
    (∀ w h, terminalDefaultModel (some (w, h)) = StartOutcome.started ⟨w, h - 2⟩) ∧
    readKeyStep (Except.error ()) = ReadStep.panicked ∧
    (∀ sq kOk, runIter sq false kOk = IterOutcome.panicNoRestore) ∧
    runIter false true false = IterOutcome.panicNoRestore ∧
    (∀ kOk, runIter true true kOk = IterOutcome.exitRestored) ∧
    runIter false true true = IterOutcome.continueLoop := by
  refine ⟨?_, ?_, rfl, ?_, rfl, ?_, rfl⟩
  · intro r
    rcases r with ⟨w, h⟩ | _ <;> simp [terminalDefaultModel]
  · intro w h; rfl
  · intro sq kOk; rfl
  · intro kOk; rfl

/-!  Claim C3 — the prompt's query edits (`editor.rs` lines 363-376). -/

/-- Claim C3 (code bug): Backspace is implemented as
`result.truncate(result.len().saturating_sub(1))`, a BYTE-index truncate.
It removes the last character only when that character is a single UTF-8
byte; when the query ends in a multi-byte character (here `"é"`) the index
falls inside the character and Rust's `String::truncate` panics, crashing
the editor instead of removing the character.  Appending non-control
characters and the empty-query no-op behave as claimed. -/
theorem prompt_backspace_panics_on_multibyte :
    promptBufferStep (strL "é") KeyCode.backspace = none ∧
    promptBufferStep (strL "aé") KeyCode.backspace = none ∧
    promptBufferStep (strL "ab") KeyCode.backspace = some (strL "a") ∧
    promptBufferStep [] KeyCode.backspace = some [] ∧
    promptBufferStep (strL "ab") (KeyCode.char 'c') = some (strL "abc") ∧
    promptBufferStep (strL "ab") (KeyCode.char 'é') = some (strL "abé") := by
  decide

/-!  Claim C2 — undoing the search advance (`editor.rs` lines 319-343). -/

/-- Claim C2 counterexample: with the cursor on the one-past-last row
`(0, 1)` of the one-line document `"ab"`, a Right keystroke in the search
session advances with `move_cursor(Right)` — a no-op there — and after
`find` returns no match the "undo" `move_cursor(Left)` moves the cursor to
the end of the previous line `(2, 0)`: the position does not equal its
value before the keystroke. -/
theorem search_advance_undo_cex :
    (edPastEnd.moveKey KeyCode.right).cursor = edPastEnd.cursor ∧
    docFind edPastEnd.document (strL "z") (edPastEnd.moveKey KeyCode.right).cursor
      SearchDirection.forward = none ∧
    (searchCb SearchDirection.forward edPastEnd KeyCode.right (strL "z")).2.cursor = ⟨2, 0⟩ ∧
    (searchCb SearchDirection.forward edPastEnd KeyCode.right (strL "z")).2.cursor ≠
      edPastEnd.cursor := by
  decide

/-!  Claim C5 — `move_cursor` preserves cursor validity. -/

theorem clampX_y (doc : Document) (q : Position) : (clampX doc q).y = q.y := by
  unfold clampX
  split <;> rfl

theorem clampX_x_le (doc : Document) (q : Position) :
    (clampX doc q).x ≤ rowLen doc (clampX doc q).y := by
  unfold clampX
  split
  · exact Nat.le_refl _
  · rename_i h
    exact Nat.le_of_not_lt h

theorem moveCursorRaw_y_le (doc : Document) (th : Nat) (p : Position) (k : KeyCode)
    (hy : p.y ≤ doc.rows.length) :
    (moveCursorRaw doc th p k).y ≤ doc.rows.length := by
  unfold moveCursorRaw
  cases k <;> (try dsimp only) <;> (try split_ifs) <;> (try dsimp only) <;> omega

/-- Claim C5: from any valid cursor position (`y` at most the row count,
`x` at most the length of row `y`, with `rowLen = 0` for a nonexistent
row), `move_cursor` produces a valid cursor position again, for every key
code: the final clamp bounds `x` by the new row's length and no motion arm
pushes `y` past the row count. -/
theorem move_cursor_preserves_valid (doc : Document) (th : Nat) (p : Position) (k : KeyCode)
    (hy : p.y ≤ doc.rows.length) (_hx : p.x ≤ rowLen doc p.y) :
    (moveCursor doc th p k).y ≤ doc.rows.length ∧
    (moveCursor doc th p k).x ≤ rowLen doc (moveCursor doc th p k).y := by
  constructor
  · rw [moveCursor, clampX_y]
    exact moveCursorRaw_y_le doc th p k hy
  · exact clampX_x_le doc _

/-- Witness for C5 at a concrete input: cursor `(1, 0)` in the one-line
document `"ab"`, key Right. -/
theorem move_cursor_preserves_valid_witness :
    (Position.mk 1 0).y ≤ edA.document.rows.length ∧
    (Position.mk 1 0).x ≤ rowLen edA.document (Position.mk 1 0).y ∧
    ((moveCursor edA.document 20 ⟨1, 0⟩ KeyCode.right).y ≤ edA.document.rows.length ∧
      (moveCursor edA.document 20 ⟨1, 0⟩ KeyCode.right).x ≤
        rowLen edA.document (moveCursor edA.document 20 ⟨1, 0⟩ KeyCode.right).y) :=
  ⟨by decide, by decide,
    move_cursor_preserves_valid edA.document 20 ⟨1, 0⟩ KeyCode.right (by decide) (by decide)⟩

/-!  Claim C9 — every non-Left/Up keystroke resets the direction. -/

/-- Claim C9: the search callback sets the direction to Forward for every
keystroke other than Left and Up (Right/Down explicitly, everything else
through the catch-all arm), so Backward never persists past the keystroke
that set it. -/
theorem search_direction_reset (d : SearchDirection) (ed : Editor) (k : KeyCode) (q : List Char)
    (h1 : k ≠ KeyCode.left) (h2 : k ≠ KeyCode.up) :
    (searchCb d ed k q).1 = SearchDirection.forward := by
  cases k
  case left => exact absurd rfl h1
  case up => exact absurd rfl h2
  all_goals rfl

/-- Witness for C9 at a concrete input: a Backspace keystroke with the
direction previously Backward. -/
theorem search_direction_reset_witness :
    (KeyCode.backspace ≠ KeyCode.left) ∧ (KeyCode.backspace ≠ KeyCode.up) ∧
    (searchCb SearchDirection.backward edA KeyCode.backspace (strL "a")).1 =
      SearchDirection.forward :=
  ⟨by decide, by decide,
    search_direction_reset SearchDirection.backward edA KeyCode.backspace (strL "a")
      (by decide) (by decide)⟩

/-- For a valid cursor position strictly above the one-past-last row, a
Left move exactly undoes a Right move: inside a row Right/Left shift the
column by one, and at a row's end Right wraps to `(0, y+1)` while Left
wraps back to the end of row `y`. -/
theorem move_right_left (doc : Document) (th : Nat) (p : Position)
    (hy : p.y < doc.rows.length) (hx : p.x ≤ rowLen doc p.y) :
    moveCursor doc th (moveCursor doc th p KeyCode.right) KeyCode.left = p := by
  rcases p with ⟨x, y⟩
  dsimp only at hy hx
  by_cases h1 : x < rowLen doc y
  · have e1 : moveCursor doc th ⟨x, y⟩ KeyCode.right = ⟨x + 1, y⟩ := by
      have hr : moveCursorRaw doc th ⟨x, y⟩ KeyCode.right = ⟨x + 1, y⟩ := by
        unfold moveCursorRaw
        dsimp only
        rw [if_pos h1]
      unfold moveCursor clampX
      rw [hr]
      dsimp only
      rw [if_neg (by omega)]
    rw [e1]
    have hl : moveCursorRaw doc th ⟨x + 1, y⟩ KeyCode.left = ⟨x, y⟩ := by
      unfold moveCursorRaw
      dsimp only
      rw [if_pos (Nat.succ_pos x), Nat.add_sub_cancel]
    unfold moveCursor clampX
    rw [hl]
    dsimp only
    rw [if_neg (by omega)]
  · have hxe : x = rowLen doc y := Nat.le_antisymm hx (Nat.le_of_not_lt h1)
    have e1 : moveCursor doc th ⟨x, y⟩ KeyCode.right = ⟨0, y + 1⟩ := by
      have hr : moveCursorRaw doc th ⟨x, y⟩ KeyCode.right = ⟨0, y + 1⟩ := by
        unfold moveCursorRaw
        dsimp only
        rw [if_neg h1, if_pos hy]
      unfold moveCursor clampX
      rw [hr]
      dsimp only
      rw [if_neg (by omega)]
    rw [e1]
    have hl : moveCursorRaw doc th ⟨0, y + 1⟩ KeyCode.left = ⟨rowLen doc y, y⟩ := by
      unfold moveCursorRaw
      dsimp only
      rw [if_neg (by omega), if_pos (Nat.succ_pos y)]
      rw [Nat.succ_sub_one]
    unfold moveCursor clampX
    rw [hl]
    dsimp only
    rw [if_neg (by omega)]
    rw [← hxe]

/-- Claim C2 (amended): a Right or Down keystroke in a search session sets
the direction to Forward and advances the working cursor one position
(with a Right move) before `find` runs; when `find` returns no match the
advance is undone with a Left move, which restores the cursor to exactly
its value before the keystroke PROVIDED the cursor was strictly above the
one-past-last row (`y < document.len()`).  (At the one-past-last row the
advance is a no-op and the Left "undo" instead moves the cursor to the end
of the last line — the counterexample above.) -/
theorem search_advance_undo_amended (d : SearchDirection) (ed : Editor) (k : KeyCode)
    (q : List Char)
    (hk : k = KeyCode.right ∨ k = KeyCode.down)
    (hy : ed.cursor.y < ed.document.rows.length)
    (hx : ed.cursor.x ≤ rowLen ed.document ed.cursor.y)
    (hnone : docFind ed.document q (moveCursor ed.document ed.termHeight ed.cursor KeyCode.right)
      SearchDirection.forward = none) :
    (searchCb d ed k q).1 = SearchDirection.forward ∧
    ((searchCb d ed k q).2).cursor = ed.cursor := by
  have hfind : docFind (ed.moveKey KeyCode.right).document q (ed.moveKey KeyCode.right).cursor
      SearchDirection.forward = none := hnone
  rcases hk with rfl | rfl <;>
    · refine ⟨rfl, ?_⟩
      show ((match docFind (ed.moveKey KeyCode.right).document q (ed.moveKey KeyCode.right).cursor
          SearchDirection.forward with
        | some pos => Editor.applyScroll { ed.moveKey KeyCode.right with cursor := pos }
        | none => (ed.moveKey KeyCode.right).moveKey KeyCode.left) :
          Editor).cursor = ed.cursor
      rw [hfind]
      show moveCursor ed.document ed.termHeight
        (moveCursor ed.document ed.termHeight ed.cursor KeyCode.right) KeyCode.left = ed.cursor
      exact move_right_left ed.document ed.termHeight ed.cursor hy hx

/-- Witness for the amended C2 at a concrete input: cursor `(0, 0)` in the
one-line document `"ab"`, Right keystroke, query `"z"` (no match). -/
theorem search_advance_undo_amended_witness :
    (KeyCode.right = KeyCode.right ∨ KeyCode.right = KeyCode.down) ∧
    edA.cursor.y < edA.document.rows.length ∧
    edA.cursor.x ≤ rowLen edA.document edA.cursor.y ∧
    docFind edA.document (strL "z")
      (moveCursor edA.document edA.termHeight edA.cursor KeyCode.right)
      SearchDirection.forward = none ∧
    ((searchCb SearchDirection.backward edA KeyCode.right (strL "z")).1 =
        SearchDirection.forward ∧
      ((searchCb SearchDirection.backward edA KeyCode.right (strL "z")).2).cursor =
        edA.cursor) :=
  ⟨Or.inl rfl, by decide, by decide, by decide,
    search_advance_undo_amended SearchDirection.backward edA KeyCode.right (strL "z")
      (Or.inl rfl) (by decide) (by decide) (by decide)⟩

/-!  Claim C7 — startup with an unopenable path. -/

/-- Claim C7: when the editor is started with a path argument on which
`Document::open` fails, it constructs the default document (empty,
untitled, not dirty) and sets the non-fatal `ERR: Could not open file:`
status message; `Editor::default` has no aborting path (the model is a
total function of the open outcome — both branches produce an editor). -/
theorem open_failure_defaults (a0 p : String) (rest : List String)
    (openFn : String → Option Document) (ts : Option (Nat × Nat))
    (h : openFn p = none) :
    (editorDefault (a0 :: p :: rest) openFn ts).document = Document.default ∧
    (editorDefault (a0 :: p :: rest) openFn ts).document.fileName = none ∧
    (editorDefault (a0 :: p :: rest) openFn ts).document.dirty = false ∧
    (editorDefault (a0 :: p :: rest) openFn ts).statusText =
      strL ("ERR: Could not open file: " ++ p) ∧
    (editorDefault (a0 :: p :: rest) openFn ts).shouldQuit = false := by
  unfold editorDefault
  rw [show (a0 :: p :: rest).get? 1 = some p from rfl]
  dsimp only
  rw [h]
  exact ⟨rfl, rfl, rfl, rfl, rfl⟩

/-- Witness for C7 at a concrete input: path `"missing.txt"`, an open
function that always fails, terminal size 80×24. -/
theorem open_failure_defaults_witness :
    ((fun _ : String => (none : Option Document)) "missing.txt" = none) ∧
    ((editorDefault ["voider", "missing.txt"] (fun _ => none) (some (80, 24))).document =
        Document.default ∧
      (editorDefault ["voider", "missing.txt"] (fun _ => none) (some (80, 24))).document.fileName =
        none ∧
      (editorDefault ["voider", "missing.txt"] (fun _ => none) (some (80, 24))).document.dirty =
        false ∧
      (editorDefault ["voider", "missing.txt"] (fun _ => none) (some (80, 24))).statusText =
        strL ("ERR: Could not open file: " ++ "missing.txt") ∧
      (editorDefault ["voider", "missing.txt"] (fun _ => none) (some (80, 24))).shouldQuit =
        false) :=
  ⟨rfl, open_failure_defaults "voider" "missing.txt" [] (fun _ => none) (some (80, 24)) rfl⟩

/-!  Claim C8 — the search session clears the highlighted word on exit. -/

/-- Claim C8: whatever keystrokes occur, a search session that completes —
by Enter (acceptance) or by Escape (cancellation) — leaves
`highlighted_word = None`, so no Match overlay query stays active for the
highlight passes that follow. -/
theorem search_clears_highlighted_word (ed : Editor) (keys : List KeyCode) (ed2 : Editor)
    (h : searchRun ed keys = some ed2) : ed2.highlightedWord = none := by
  unfold searchRun at h
  rcases hpr : promptRun searchCb (strL "Search: ") SearchDirection.forward ed [] keys with
      _ | ⟨s, e, b⟩ | ⟨s, e, raw⟩ <;> rw [hpr] at h
  · exact absurd h (by simp)
  · exact absurd h (by simp)
  · rw [← Option.some.inj h]

/-- Witness for C8 at a concrete input: the session types `"q"` and
accepts with Enter. -/
theorem search_clears_highlighted_word_witness :
    searchRun edA [KeyCode.char 'q', KeyCode.enter] = some edA ∧
    edA.highlightedWord = none :=
  ⟨by decide,
    search_clears_highlighted_word edA [KeyCode.char 'q', KeyCode.enter] edA (by decide)⟩

/-!  Generic lemmas about the prompt loop. -/

/-- The editor state carried by a non-panicked prompt outcome. -/
def promptOutEditor {σ : Type} : PromptOut σ → Option Editor
  | PromptOut.panicked => none
  | PromptOut.unfinished _ e _ => some e
  | PromptOut.done _ e _ => some e

/-- Any editor field untouched by the status-line update and by the
callback survives the whole prompt loop. -/
theorem promptRun_preserves {σ α : Type} (cb : σ → Editor → KeyCode → List Char → σ × Editor)
    (pstr : List Char) (f : Editor → α)
    (hst : ∀ (e : Editor) (t : List Char), f { e with statusText := t } = f e)
    (hcb : ∀ s e k q, f ((cb s e k q).2) = f e) :
    ∀ (ks : List KeyCode) (s : σ) (ed : Editor) (buf : List Char) (ed2 : Editor),
      promptOutEditor (promptRun cb pstr s ed buf ks) = some ed2 → f ed2 = f ed := by
  intro ks
  induction ks with
  | nil =>
    intro s ed buf ed2 h
    simp only [promptRun, promptOutEditor, Option.some.injEq] at h
    rw [← h]
  | cons k t ih =>
    intro s ed buf ed2 h
    cases k <;> simp only [promptRun] at h
    case enter =>
      simp only [promptOutEditor, Option.some.injEq] at h
      rw [← h, hst, hst]
    case esc =>
      simp only [promptOutEditor, Option.some.injEq] at h
      rw [← h, hst, hst]
    case backspace =>
      rcases htb : truncateBytes buf (byteLen buf - 1) with _ | b <;> rw [htb] at h
      · exact absurd h (by simp [promptOutEditor])
      · exact (ih _ _ _ _ h).trans ((hcb _ _ _ _).trans (hst _ _))
    all_goals exact (ih _ _ _ _ h).trans ((hcb _ _ _ _).trans (hst _ _))

/-- Running the prompt loop on a concatenation: if the first segment does
not finish the session, the loop continues on the second from where it
left off; otherwise the second segment is never consumed. -/
theorem promptRun_append {σ : Type} (cb : σ → Editor → KeyCode → List Char → σ × Editor)
    (pstr : List Char) :
    ∀ (ks ks' : List KeyCode) (s : σ) (ed : Editor) (buf : List Char),
      promptRun cb pstr s ed buf (ks ++ ks') =
        (match promptRun cb pstr s ed buf ks with
          | PromptOut.unfinished s2 ed2 buf2 => promptRun cb pstr s2 ed2 buf2 ks'
          | r => r) := by
  intro ks
  induction ks with
  | nil => intro ks' s ed buf; rfl
  | cons k t ih =>
    intro ks' s ed buf
    cases k <;> simp only [List.cons_append, promptRun]
    case backspace =>
      rcases truncateBytes buf (byteLen buf - 1) with _ | b
      · rfl
      · exact ih _ _ _ _
    all_goals exact ih _ _ _ _

/-- A keystroke segment containing neither Enter nor Escape cannot finish
the prompt loop: the run either panics or remains unfinished. -/
theorem promptRun_noExit {σ : Type} (cb : σ → Editor → KeyCode → List Char → σ × Editor)
    (pstr : List Char) :
    ∀ (ks : List KeyCode), (∀ k ∈ ks, k ≠ KeyCode.enter ∧ k ≠ KeyCode.esc) →
      ∀ (s : σ) (ed : Editor) (buf : List Char),
        promptRun cb pstr s ed buf ks = PromptOut.panicked ∨
        ∃ s2 ed2 buf2, promptRun cb pstr s ed buf ks = PromptOut.unfinished s2 ed2 buf2 := by
  intro ks
  induction ks with
  | nil =>
    intro _ s ed buf
    exact Or.inr ⟨s, ed, buf, rfl⟩
  | cons k t ih =>
    intro hmem s ed buf
    have hk := hmem k (List.mem_cons_self k t)
    have ht : ∀ k2 ∈ t, k2 ≠ KeyCode.enter ∧ k2 ≠ KeyCode.esc :=
      fun k2 hk2 => hmem k2 (List.mem_cons_of_mem k hk2)
    cases k
    case enter => exact absurd rfl hk.1
    case esc => exact absurd rfl hk.2
    case backspace =>
      simp only [promptRun]
      rcases truncateBytes buf (byteLen buf - 1) with _ | b
      · exact Or.inl rfl
      · exact ih ht _ _ _
    all_goals simp only [promptRun]
    all_goals exact ih ht _ _ _

/-!  Claim C6 — Escape restores the cursor recorded at entry. -/

/-- Claim C6: a search session that ends with an Escape keystroke — after
any sequence of non-terminating keystrokes, whatever cursor motion and
matches they caused — restores the cursor to exactly the position recorded
when the session was entered (Escape empties the query buffer, the prompt
hence returns no query, and `Editor::search` puts the saved position
back). -/
theorem search_escape_restores_cursor (ed : Editor) (ks rest : List KeyCode) (ed2 : Editor)
    (hks : ∀ k ∈ ks, k ≠ KeyCode.enter ∧ k ≠ KeyCode.esc)
    (h : searchRun ed (ks ++ KeyCode.esc :: rest) = some ed2) :
    ed2.cursor = ed.cursor := by
  unfold searchRun at h
  rw [promptRun_append] at h
  rcases promptRun_noExit searchCb (strL "Search: ") ks hks SearchDirection.forward ed [] with
      hp | ⟨s2, e2, b2, hp⟩ <;> rw [hp] at h
  · exact absurd h (by simp)
  · simp only [promptRun] at h
    rw [← Option.some.inj h]
    rfl

/-- Witness for C6 at a concrete input: the session types `"b"` (a match
moves nothing here since the cursor is already on the match) and cancels
with Escape. -/
theorem search_escape_restores_cursor_witness :
    (∀ k ∈ [KeyCode.char 'b'], k ≠ KeyCode.enter ∧ k ≠ KeyCode.esc) ∧
    searchRun edPastEnd ([KeyCode.char 'b'] ++ KeyCode.esc :: []) = some edPastEnd ∧
    edPastEnd.cursor = edPastEnd.cursor :=
  ⟨by decide, by decide,
    search_escape_restores_cursor edPastEnd [KeyCode.char 'b'] [] edPastEnd
      (by decide) (by decide)⟩

/-!  Claim C10 — the empty-query prompt result and its callers. -/

/-- Claim C10: the prompt returns `None` exactly when the accumulated text
is empty at exit.  Consequently an Enter pressed while the buffer is empty
is indistinguishable from an Escape at both callers: the search run is the
very same editor (entry cursor restored), and the save flow aborts —
returning `(…, false)`: no write attempted — with the document (hence also
its absent file name) unchanged. -/
theorem prompt_empty_none :
    (∀ raw : List Char, promptQuery raw = none ↔ raw = []) ∧
    (∀ (ed : Editor) (ks : List KeyCode) (s2 : SearchDirection) (ed2 : Editor),
      (∀ k ∈ ks, k ≠ KeyCode.enter ∧ k ≠ KeyCode.esc) →
      promptRun searchCb (strL "Search: ") SearchDirection.forward ed [] ks =
        PromptOut.unfinished s2 ed2 [] →
      searchRun ed (ks ++ [KeyCode.enter]) = searchRun ed (ks ++ [KeyCode.esc]) ∧
      ∃ ed3, searchRun ed (ks ++ [KeyCode.enter]) = some ed3 ∧ ed3.cursor = ed.cursor) ∧
    (∀ (ed : Editor) (ks : List KeyCode) (ed2 : Editor) (sOk : Bool),
      ed.document.fileName = none →
      (∀ k ∈ ks, k ≠ KeyCode.enter ∧ k ≠ KeyCode.esc) →
      promptRun saveCb (strL "Save as: ") () ed [] ks = PromptOut.unfinished () ed2 [] →
      saveRun ed (ks ++ [KeyCode.enter]) sOk = saveRun ed (ks ++ [KeyCode.esc]) sOk ∧
      saveRun ed (ks ++ [KeyCode.enter]) sOk =
        some ({ ed2 with statusText := strL "Save aborted: " }, false) ∧
      ed2.document = ed.document) := by
  refine ⟨?_, ?_, ?_⟩
  · intro raw
    cases raw <;> simp [promptQuery]
  · intro ed ks s2 ed2 hks hpr
    constructor
    · unfold searchRun
      rw [promptRun_append, promptRun_append, hpr]
      rfl
    · refine ⟨{ Editor.applyScroll { ed2 with statusText := [], cursor := ed.cursor } with
          highlightedWord := none }, ?_, rfl⟩
      unfold searchRun
      rw [promptRun_append, hpr]
      rfl
  · intro ed ks ed2 sOk hfn hks hpr
    have hisn : ed.document.fileName.isNone = true := by rw [hfn]; rfl
    have hdoc : ed2.document = ed.document :=
      promptRun_preserves saveCb (strL "Save as: ") Editor.document
        (fun _ _ => rfl) (fun _ _ _ _ => rfl) ks () ed [] ed2 (by rw [hpr]; rfl)
    refine ⟨?_, ?_, hdoc⟩
    · unfold saveRun
      rw [hisn, if_pos rfl, promptRun_append, promptRun_append, hpr]
      rfl
    · unfold saveRun
      rw [hisn, if_pos rfl, promptRun_append, hpr]
      rfl

/-- Witness for C10 at concrete inputs: the empty keystroke segment in
front of the Enter/Escape, for both the search and the save caller. -/
theorem prompt_empty_none_witness :
    (promptQuery [] = none ↔ ([] : List Char) = []) ∧
    (searchRun edA ([] ++ [KeyCode.enter]) = searchRun edA ([] ++ [KeyCode.esc]) ∧
      ∃ ed3, searchRun edA ([] ++ [KeyCode.enter]) = some ed3 ∧ ed3.cursor = edA.cursor) ∧
    (saveRun edA ([] ++ [KeyCode.enter]) true = saveRun edA ([] ++ [KeyCode.esc]) true ∧
      saveRun edA ([] ++ [KeyCode.enter]) true =
        some ({ edA with statusText := strL "Save aborted: " }, false) ∧
      edA.document = edA.document) :=
  ⟨prompt_empty_none.1 [],
    prompt_empty_none.2.1 edA [] SearchDirection.forward edA (by simp) rfl,
    prompt_empty_none.2.2 edA [] edA true rfl (by simp) rfl⟩

/-!  Claim C1 — the quit protocol of `process_keypress`. -/

/-- The F8 warning step: with a dirty document and a positive counter, the
press only warns (with the pre-decrement count) and decrements, returning
early. -/
theorem pressF8_warn (ed : Editor) (h1 : ed.document.dirty = true) (h2 : 0 < ed.quitTimes) :
    pressF8 ed = { ed with statusText := warnMsg ed.quitTimes, quitTimes := ed.quitTimes - 1 } := by
  unfold pressF8 processKeypress
  rw [if_pos rfl, if_pos ⟨h2, h1⟩]
  rfl

/-- The F8 quit step: when the warning guard fails (clean document or
exhausted counter) the press sets `should_quit` and falls through to the
scroll/reset tail. -/
theorem pressF8_quits (ed : Editor) (h : ¬(0 < ed.quitTimes ∧ ed.document.dirty = true)) :
    pressF8 ed = finishKey { ed with shouldQuit := true } := by
  unfold pressF8 processKeypress
  rw [if_pos rfl, if_neg h]
  rfl

/-- A completed search session leaves the quit counter untouched. -/
theorem searchRun_quitTimes (ed : Editor) (keys : List KeyCode) (ed2 : Editor)
    (h : searchRun ed keys = some ed2) : ed2.quitTimes = ed.quitTimes := by
  unfold searchRun at h
  rcases hpr : promptRun searchCb (strL "Search: ") SearchDirection.forward ed [] keys with
      _ | ⟨s, e, b⟩ | ⟨s, e, raw⟩ <;> rw [hpr] at h
  · exact absurd h (by simp)
  · exact absurd h (by simp)
  · have he : e.quitTimes = ed.quitTimes :=
      promptRun_preserves searchCb (strL "Search: ") Editor.quitTimes
        (fun _ _ => rfl) searchCb_quitTimes keys _ _ _ e (by rw [hpr]; rfl)
    rw [← Option.some.inj h]
    rcases promptQuery raw with _ | q
    · exact he
    · exact he

/-- A completed save flow leaves the quit counter untouched. -/
theorem saveRun_quitTimes (ed : Editor) (keys : List KeyCode) (sOk : Bool)
    (out : Editor × Bool) (h : saveRun ed keys sOk = some out) :
    out.1.quitTimes = ed.quitTimes := by
  unfold saveRun at h
  by_cases hf : ed.document.fileName.isNone = true
  · rw [if_pos hf] at h
    rcases hpr : promptRun saveCb (strL "Save as: ") () ed [] keys with
        _ | ⟨s, e, b⟩ | ⟨s, e, raw⟩ <;> rw [hpr] at h
    · exact absurd h (by simp)
    · exact absurd h (by simp)
    · have he : e.quitTimes = ed.quitTimes :=
        promptRun_preserves saveCb (strL "Save as: ") Editor.quitTimes
          (fun _ _ => rfl) (fun _ _ _ _ => rfl) keys _ _ _ e (by rw [hpr]; rfl)
      dsimp only at h
      rcases hq : promptQuery raw with _ | name <;> rw [hq] at h <;> rw [← Option.some.inj h]
      · exact he
      · exact (doSave_quitTimes _ sOk).trans he
  · rw [if_neg hf] at h
    rw [← Option.some.inj h]
    exact doSave_quitTimes ed sOk

/-- Claim C1: quit protocol.  (a) From a reachable dirty state whose
counter is at its reset value 3 (the value every non-quit keystroke
restores) and which is still running, three consecutive F8 presses only
warn — reporting 3, 2 and 1 more required presses and stepping the counter
3→2→1→0 — and do not quit; the press after those three invocations sets
`should_quit`.  (b) Every non-F8 keystroke that completes leaves the
counter at 3 (reachable states have counter ≤ 3: it starts at 3 and is
only ever decremented or reset to 3).  (c) With a clean document a single
F8 press sets `should_quit` immediately. -/
theorem quit_protocol :
    (∀ ed : Editor, ed.shouldQuit = false → ed.document.dirty = true → ed.quitTimes = 3 →
      (pressF8 ed).shouldQuit = false ∧
      (pressF8 ed).quitTimes = 2 ∧
      (pressF8 ed).statusText = warnMsg 3 ∧
      (pressF8 (pressF8 ed)).shouldQuit = false ∧
      (pressF8 (pressF8 ed)).quitTimes = 1 ∧
      (pressF8 (pressF8 ed)).statusText = warnMsg 2 ∧
      (pressF8 (pressF8 (pressF8 ed))).shouldQuit = false ∧
      (pressF8 (pressF8 (pressF8 ed))).quitTimes = 0 ∧
      (pressF8 (pressF8 (pressF8 ed))).statusText = warnMsg 1 ∧
      (pressF8 (pressF8 (pressF8 (pressF8 ed)))).shouldQuit = true) ∧
    (∀ (ed : Editor) (key : KeyCode) (rest : List KeyCode) (sOk : Bool) (ed2 : Editor),
      key ≠ KeyCode.f 8 → ed.quitTimes ≤ 3 →
      processKeypress ed key rest sOk = some ed2 → ed2.quitTimes = 3) ∧
    (∀ ed : Editor, ed.document.dirty = false → (pressF8 ed).shouldQuit = true) := by
  refine ⟨?_, ?_, ?_⟩
  · intro ed hsq hd hq
    have h1 : pressF8 ed = { ed with statusText := warnMsg 3, quitTimes := 2 } := by
      have hw := pressF8_warn ed hd (by omega)
      rw [hq] at hw
      exact hw
    have h2 : pressF8 (pressF8 ed) = { ed with statusText := warnMsg 2, quitTimes := 1 } := by
      rw [h1]
      exact pressF8_warn _ hd (Nat.succ_pos 1)
    have h3 : pressF8 (pressF8 (pressF8 ed)) =
        { ed with statusText := warnMsg 1, quitTimes := 0 } := by
      rw [h2]
      exact pressF8_warn _ hd (Nat.succ_pos 0)
    have h4 : (pressF8 (pressF8 (pressF8 (pressF8 ed)))).shouldQuit = true := by
      rw [h3, pressF8_quits _ (fun hc => Nat.lt_irrefl 0 hc.1), finishKey_shouldQuit]
    refine ⟨?_, ?_, ?_, ?_, ?_, ?_, ?_, ?_, ?_, h4⟩
    · rw [h1]; exact hsq
    · rw [h1]
    · rw [h1]
    · rw [h2]; exact hsq
    · rw [h2]
    · rw [h2]
    · rw [h3]; exact hsq
    · rw [h3]
    · rw [h3]
  · intro ed key rest sOk ed2 hk hle h
    cases key
    case f n =>
      have hn8 : ¬ (KeyCode.f n = KeyCode.f 8) := hk
      unfold processKeypress at h
      rw [if_neg hn8] at h
      by_cases h3 : KeyCode.f n = KeyCode.f 3
      · rw [if_pos h3] at h
        rcases Option.map_eq_some'.mp h with ⟨e, hse, rfl⟩
        exact finishKey_quitTimes _ (by rw [searchRun_quitTimes ed rest e hse]; exact hle)
      · rw [if_neg h3] at h
        by_cases h5 : KeyCode.f n = KeyCode.f 5
        · rw [if_pos h5] at h
          rcases Option.map_eq_some'.mp h with ⟨e, hse, rfl⟩
          rcases Option.map_eq_some'.mp hse with ⟨out, hso, rfl⟩
          exact finishKey_quitTimes _
            (by rw [saveRun_quitTimes ed rest sOk out hso]; exact hle)
        · rw [if_neg h5] at h
          rw [← Option.some.inj h]
          exact finishKey_quitTimes _ hle
    all_goals
      unfold processKeypress at h
      rw [if_neg (by simp), if_neg (by simp), if_neg (by simp)] at h
      rw [← Option.some.inj h]
      apply finishKey_quitTimes
      first
        | exact hle
        | (split <;> first
            | exact hle
            | (split <;> exact hle))
  · intro ed hd
    rw [pressF8_quits ed (fun hc => by rw [hd] at hc; exact absurd hc.2 (by decide)),
      finishKey_shouldQuit]

/-- Witness for C1 at concrete inputs: the dirty one-line editor for the
warning chain, a printable keystroke for the counter reset, and the clean
editor for the immediate quit. -/
theorem quit_protocol_witness :
    edDirty.shouldQuit = false ∧ edDirty.document.dirty = true ∧ edDirty.quitTimes = 3 ∧
    (pressF8 (pressF8 (pressF8 (pressF8 edDirty)))).shouldQuit = true ∧
    (KeyCode.char 'x' ≠ KeyCode.f 8) ∧ edA.quitTimes ≤ 3 ∧
    ((processKeypress edA (KeyCode.char 'x') [] true).getD edA).quitTimes = 3 ∧
    edA.document.dirty = false ∧ (pressF8 edA).shouldQuit = true :=
  ⟨by decide, by decide, by decide,
    (quit_protocol.1 edDirty (by decide) (by decide) (by decide)).2.2.2.2.2.2.2.2.2,
    by decide, by decide,
    quit_protocol.2.1 edA (KeyCode.char 'x') [] true _ (by decide) (by decide) (by decide),
    by decide,
    quit_protocol.2.2 edA (by decide)⟩

end Voider
